import Mathlib

/-!
# Virtual CAN controller: the MMIO read and write handlers

A shallow embedding of `hw/misc/virtual_can_controller.c`.

* Machine integers are natural numbers or integers; every C conversion is an
  explicit reduction (`% 2^32`, `% 256`, ...).
* An automatic `uint8_t` array is a `Buffer`: its cells (a cell is `none`
  while its value is indeterminate) and the log of the indices stored to.
* A handler is a function from the device state and the access to an outcome
  record: the returned value, the device state at return, the request buffer
  at return, and the trace of the calls made (`printf`, `qemu_mutex_lock`,
  `error_report`, `qemu_mutex_unlock`) in program order.
* The two assignments to `ret` in the read handler and the one in the write
  handler are the places of the channel send and receive.  The handler bodies
  take the assigned values as parameters (`ret_send`, `ret_recv`, and the
  contents of `buf` at the decode step); the handlers themselves instantiate
  them with what the source assigns.
* Two concurrent calls are the interleavings of their two traces; the mutex
  admits an interleaving when no `qemu_mutex_lock` in it returns while the
  lock is held.
-/

namespace VirtualCAN

/-! ## C integer conversions -/

/-- Conversion of an `unsigned` value to `int`: the value modulo `2^32`, read
as a two's-complement number. -/
def int_of_unsigned (n : Nat) : Int :=
  if n % 2 ^ 32 < 2 ^ 31 then ((n % 2 ^ 32 : Nat) : Int)
  else ((n % 2 ^ 32 : Nat) : Int) - 2 ^ 32

/-- Conversion of an `int` to `unsigned` (the usual arithmetic conversion in
`ret != size`). -/
def unsigned_of_int (i : Int) : Nat := (i % 2 ^ 32).toNat

/-- Conversion of an `int` to `size_t` (the usual arithmetic conversion in
`ret != sizeof(req)`). -/
def size_t_of_int (i : Int) : Nat := (i % 2 ^ 64).toNat

/-! ## Byte buffers -/

/-- An automatic `uint8_t` array.  `cells` holds the bytes, `none` for a cell
whose value is indeterminate; `stored` logs the indices written, in order. -/
structure Buffer where
  cells : List (Option Nat)
  stored : List Nat
deriving DecidableEq, Repr

/-- The array `uint8_t a[n];` without initialiser. -/
def Buffer.uninit (n : Nat) : Buffer :=
  { cells := List.replicate n none, stored := [] }

/-- The array with every cell initialised to the given bytes, as by
`uint8_t a[n] = { ... }` (cells the initialiser omits are zero and are given
explicitly). -/
def Buffer.init (bytes : List Nat) : Buffer :=
  { cells := bytes.map some, stored := [] }

/-- The assignment `a[i] = v` of a byte. -/
def Buffer.store (b : Buffer) (i v : Nat) : Buffer :=
  { cells := b.cells.set i (some v), stored := b.stored ++ [i] }

/-- Modelled from the spec: `stl_le_p` of `qemu/bswap.h`, which is not among
the sources.  The wire layout gives `address(4, LE)`: the 32-bit value `v` is
stored at `p .. p+3`, least significant byte first. -/
def stl_le_p (b : Buffer) (p v : Nat) : Buffer :=
  (((b.store p (v % 256)).store (p + 1) (v / 2 ^ 8 % 256)).store (p + 2)
    (v / 2 ^ 16 % 256)).store (p + 3) (v / 2 ^ 24 % 256)

/-- Modelled from the spec: `stw_le_p` of `qemu/bswap.h`, which is not among
the sources.  The 16-bit value `v` is stored at `p`, `p+1`, least significant
byte first. -/
def stw_le_p (b : Buffer) (p v : Nat) : Buffer :=
  (b.store p (v % 256)).store (p + 1) (v / 2 ^ 8 % 256)

/-- Modelled from the spec: `lduw_le_p` of `qemu/bswap.h`, which is not among
the sources.  The spec reads the bytes "as an unsigned little-endian integer
zero-extended to the return width": here the two bytes at indices 0 and 1. -/
def lduw_le_p (buf : List Nat) : Nat :=
  buf.getD 0 0 + 2 ^ 8 * buf.getD 1 0

/-- Modelled from the spec: `ldl_le_p` of `qemu/bswap.h`, which is not among
the sources.  The spec reads the bytes "as an unsigned little-endian integer
zero-extended to the return width": here the four bytes at indices 0 to 3.
The C return type of the helper is not visible in the sources. -/
def ldl_le_p (buf : List Nat) : Nat :=
  buf.getD 0 0 + 2 ^ 8 * buf.getD 1 0 + 2 ^ 16 * buf.getD 2 0 + 2 ^ 24 * buf.getD 3 0

/-! ## Device state, diagnostics and traces -/

/-- The `.valid` member of a `MemoryRegionOps`. -/
structure AccessConstraints where
  min_access_size : Nat
  max_access_size : Nat
deriving DecidableEq, Repr

/-- The `valid` bounds of `virtual_can_controller_ops`. -/
def virtual_can_controller_ops_valid : AccessConstraints :=
  { min_access_size := 1, max_access_size := 4 }

/-- The `mmio` region of the device: its `valid` bounds, its size, and the
address it is mapped at, once it is. -/
structure MemoryRegion where
  valid : AccessConstraints
  size : Nat
  mapped_at : Option Nat
deriving DecidableEq, Repr

/-- The struct `VirtualCANControllerState`; `lock` is `true` while the mutex is
held. -/
structure VirtualCANControllerState where
  mmio : Option MemoryRegion
  base_addr : Nat
  lock : Bool
deriving DecidableEq, Repr

/-- The messages the handlers pass to `error_report`. -/
inductive Report where
  | send_read_failed
  | read_response_failed
  | invalid_read_size (size : Nat)
  | invalid_write_size (size : Nat)
  | send_write_failed
deriving DecidableEq, Repr

/-- The calls a handler makes, in program order. -/
inductive Event where
  | printf_read (offset size : Nat)
  | printf_sending_read (offset size : Nat)
  | printf_sending_write (offset size value : Nat)
  | mutex_lock
  | mutex_unlock
  | error_report (r : Report)
deriving DecidableEq, Repr

/-- Modelled from the spec: `qemu_mutex_lock` of `qemu/thread.h`, which is not
among the sources.  The call returns holding the lock. -/
def qemu_mutex_lock (s : VirtualCANControllerState) : VirtualCANControllerState :=
  { s with lock := true }

/-- Modelled from the spec: `qemu_mutex_unlock` of `qemu/thread.h`, which is
not among the sources.  The call releases the lock. -/
def qemu_mutex_unlock (s : VirtualCANControllerState) : VirtualCANControllerState :=
  { s with lock := false }

/-- Replays the mutex calls of a trace on a lock: `none` when the trace locks
a held mutex or unlocks a free one. -/
def lock_after : Bool → List Event → Option Bool
  | held, [] => some held
  | held, Event.mutex_lock :: t => if held then none else lock_after true t
  | held, Event.mutex_unlock :: t => if held then lock_after false t else none
  | held, _ :: t => lock_after held t

/-! ## The read handler -/

/-- What `virtual_can_controller_read` leaves behind. -/
structure ReadOutcome where
  value : Nat
  state : VirtualCANControllerState
  req : Buffer
  buf_loaded : List Nat
  trace : List Event
deriving DecidableEq, Repr

/-- The `switch (size)` of the read handler on the response buffer `buf`: the
decoded value, the indices of `buf` it loads, and the diagnostics. -/
def virtual_can_controller_read_decode (buf : List Nat) (size : Nat) :
    Nat × List Nat × List Event :=
  if size = 1 then (buf.getD 0 0, [0], [])
  else if size = 2 then (lduw_le_p buf, [0, 1], [])
  else if size = 4 then (ldl_le_p buf, [0, 1, 2, 3], [])
  else (0, [], [Event.error_report (Report.invalid_read_size size)])

/-- The body of `virtual_can_controller_read`, with the value assigned to
`ret` at the send (`ret_send`), the value assigned to `ret` at the receive
(`ret_recv`) and the contents of `buf` at the decode step as parameters. -/
def virtual_can_controller_read_body (ret_send ret_recv : Int) (buf : List Nat)
    (state : VirtualCANControllerState) (offset size : Nat) : ReadOutcome :=
  let t0 := [Event.printf_read (offset % 2 ^ 32) size]
  let req0 := Buffer.init [0x52, 0, 0, 0, 0, 0]
  let st1 := qemu_mutex_lock state
  let req1 := stl_le_p req0 1 (offset % 2 ^ 32)
  let req2 := req1.store 5 (size % 256)
  let t1 := t0 ++ [Event.mutex_lock, Event.printf_sending_read (offset % 2 ^ 32) size]
  if size_t_of_int ret_send ≠ 6 then
    { value := 0, state := qemu_mutex_unlock st1, req := req2, buf_loaded := [],
      trace := t1 ++ [Event.error_report Report.send_read_failed, Event.mutex_unlock] }
  else if unsigned_of_int ret_recv ≠ size then
    { value := 0, state := qemu_mutex_unlock st1, req := req2, buf_loaded := [],
      trace := t1 ++ [Event.error_report Report.read_response_failed, Event.mutex_unlock] }
  else
    let d := virtual_can_controller_read_decode buf size
    { value := d.1, state := qemu_mutex_unlock st1, req := req2, buf_loaded := d.2.1,
      trace := t1 ++ d.2.2 ++ [Event.mutex_unlock] }

/-- The handler `virtual_can_controller_read`: `ret = sizeof(req)` at the
send, `ret = size` at the receive, and `buf` still as initialised by
`uint8_t buf[8] = {0}`. -/
def virtual_can_controller_read (state : VirtualCANControllerState) (offset size : Nat) :
    ReadOutcome :=
  virtual_can_controller_read_body 6 (int_of_unsigned size) (List.replicate 8 0)
    state offset size

/-! ## The write handler -/

/-- What `virtual_can_controller_write` leaves behind. -/
structure WriteOutcome where
  state : VirtualCANControllerState
  req : Buffer
  packet_size : Int
  trace : List Event
deriving DecidableEq, Repr

/-- The body of `virtual_can_controller_write`, with the value assigned to
`ret` at the send as a parameter. -/
def virtual_can_controller_write_body (ret_send : Int)
    (state : VirtualCANControllerState) (offset value size : Nat) : WriteOutcome :=
  let req0 := Buffer.uninit 14
  let packet_size := int_of_unsigned (6 + size)
  let st1 := qemu_mutex_lock state
  let req1 := req0.store 0 0x57
  let req2 := stl_le_p req1 1 (offset % 2 ^ 32)
  let req3 := req2.store 5 (size % 256)
  let send := fun (req : Buffer) =>
    let t := [Event.mutex_lock, Event.printf_sending_write (offset % 2 ^ 32) size value]
    if ret_send ≠ packet_size then
      { state := qemu_mutex_unlock st1, req := req, packet_size := packet_size,
        trace := t ++ [Event.error_report Report.send_write_failed, Event.mutex_unlock]
        : WriteOutcome }
    else
      { state := qemu_mutex_unlock st1, req := req, packet_size := packet_size,
        trace := t ++ [Event.mutex_unlock] }
  if size = 1 then send (req3.store 6 (value % 256))
  else if size = 2 then send (stw_le_p req3 6 (value % 2 ^ 16))
  else if size = 4 then send (stl_le_p req3 6 (value % 2 ^ 32))
  else
    { state := qemu_mutex_unlock st1, req := req3, packet_size := packet_size,
      trace := [Event.mutex_lock, Event.error_report (Report.invalid_write_size size),
        Event.mutex_unlock] }

/-- The handler `virtual_can_controller_write`: `ret = packet_size` at the
send. -/
def virtual_can_controller_write (state : VirtualCANControllerState)
    (offset value size : Nat) : WriteOutcome :=
  virtual_can_controller_write_body (int_of_unsigned (6 + size)) state offset value size

/-! ## Realization -/

/-- The function `virtual_can_controller_realize`: sets the base address,
initialises the lock, initialises the `mmio` region with the handlers' ops and
size `0x1000`, and maps it at the base address. -/
def virtual_can_controller_realize (state : VirtualCANControllerState) :
    VirtualCANControllerState :=
  { state with
    base_addr := 0x40006400
    lock := false
    mmio := some { valid := virtual_can_controller_ops_valid, size := 0x1000,
                   mapped_at := some 0x40006400 } }

/-- The device object as allocated, before realization: zero-filled. -/
def unrealized_state : VirtualCANControllerState :=
  { mmio := none, base_addr := 0, lock := false }

/-- The device after `virtual_can_controller_realize`. -/
def realized_state : VirtualCANControllerState :=
  virtual_can_controller_realize unrealized_state

/-! ## Reference encodings, following the wire-protocol description -/

/-- The `n` little-endian bytes of the low `8 * n` bits of `v`. -/
def le_bytes (n v : Nat) : List Nat :=
  (List.range n).map fun i => v / 256 ^ i % 256

/-- The unsigned integer whose little-endian bytes are `bs`. -/
def le_value : List Nat → Nat
  | [] => 0
  | b :: bs => b + 256 * le_value bs

/-- The bytes of the initialised cells of a list of cells. -/
def bytes_of (cells : List (Option Nat)) : List Nat :=
  cells.filterMap id

/-- The lock discipline of one handler call, read off its trace and the state
at return: the mutex is locked exactly once and unlocked exactly once, the
unlock is the last call, replaying the trace on a free lock never locks a held
mutex nor unlocks a free one and ends with the lock free, and the lock is free
in the state at return. -/
def lock_discipline (trace : List Event) (final : VirtualCANControllerState) : Prop :=
  trace.count Event.mutex_lock = 1
  ∧ trace.count Event.mutex_unlock = 1
  ∧ trace.getLast? = some Event.mutex_unlock
  ∧ lock_after false trace = some false
  ∧ final.lock = false

/-- The bytes of the read request: the `sizeof(req)` = 6 cells of `req`. -/
def read_request_bytes (r : ReadOutcome) : List Nat :=
  bytes_of (r.req.cells.take 6)

/-- The bytes of the write request: the first `packet_size` cells of `req`. -/
def write_request_bytes (w : WriteOutcome) : List Nat :=
  bytes_of (w.req.cells.take w.packet_size.toNat)

/-! ## Two concurrent calls -/

/-- Whether a call is made while the handler holds the lock: every call of a
handler but the `printf` on entry of the read handler, which precedes
`qemu_mutex_lock`. -/
def Event.in_exchange : Event → Bool
  | Event.printf_read _ _ => false
  | _ => true

/-- The events of a trace, each tagged with the call that makes it: `false`
for the first of two concurrent calls, `true` for the second. -/
def tagged (call : Bool) (t : List Event) : List (Bool × Event) :=
  t.map fun e => (call, e)

/-- The exchange of a call: the events it makes while it holds the lock, from
`qemu_mutex_lock` to `qemu_mutex_unlock`, tagged with the call. -/
def exchange (call : Bool) (t : List Event) : List (Bool × Event) :=
  tagged call (t.filter Event.in_exchange)

/-- The executions of two concurrent calls with traces `a` and `b`: the
sequences that hold the events of `a` (tagged `false`) and of `b` (tagged
`true`), each in its own program order, merged in any way. -/
inductive Interleave : List Event → List Event → List (Bool × Event) → Prop where
  | done : Interleave [] [] []
  | first {x : Event} {a b : List Event} {m : List (Bool × Event)} :
      Interleave a b m → Interleave (x :: a) b ((false, x) :: m)
  | second {y : Event} {a b : List Event} {m : List (Bool × Event)} :
      Interleave a b m → Interleave a (y :: b) ((true, y) :: m)

/-- Whether the mutex admits an execution started with the lock free: no call
to `qemu_mutex_lock` returns while the mutex is held (the caller blocks
instead, so the event is not at that place), and none unlocks a free mutex. -/
def mutex_admits (m : List (Bool × Event)) : Bool :=
  (lock_after false (m.map Prod.snd)).isSome

/-! ## Theorems -/

/-- The request buffer of the read body does not depend on the branch taken. -/
theorem read_body_req (ret_send ret_recv : Int) (buf : List Nat)
    (state : VirtualCANControllerState) (offset size : Nat) :
    (virtual_can_controller_read_body ret_send ret_recv buf state offset size).req =
      (stl_le_p (Buffer.init [0x52, 0, 0, 0, 0, 0]) 1 (offset % 2 ^ 32)).store 5 (size % 256) := by
  unfold virtual_can_controller_read_body
  simp only []
  split_ifs <;> rfl

/-- C1: for every offset and size the request built by
`virtual_can_controller_read` is exactly six bytes, `'R'` (0x52), then the low
32 bits of the offset as four little-endian bytes, then the size as one byte,
whatever the size; for offset 0x1000 and size 4 it is `52 00 10 00 00 04`. -/
theorem read_request_layout :
    (∀ (state : VirtualCANControllerState) (offset size : Nat),
      (virtual_can_controller_read state offset size).req.cells =
          ([0x52] ++ le_bytes 4 (offset % 2 ^ 32) ++ [size % 256]).map some
        ∧ (virtual_can_controller_read state offset size).req.cells.length = 6)
    ∧ (∀ state : VirtualCANControllerState,
        (virtual_can_controller_read state 0x1000 4).req.cells =
          [some 0x52, some 0x00, some 0x10, some 0x00, some 0x00, some 0x04]) := by
  refine ⟨fun state offset size => ?_, fun state => ?_⟩
  · rw [virtual_can_controller_read, read_body_req]
    simp [stl_le_p, Buffer.store, Buffer.init, le_bytes, List.range, List.range.loop]
  · rw [virtual_can_controller_read, read_body_req]
    decide

/-- C2: for every offset, value and size in {1,2,4} the request built by
`virtual_can_controller_write` has length `6 + size` and its bytes are `'W'`
(0x57), the low 32 bits of the offset little-endian, the size byte, then the
low `8 * size` bits of the value as `size` little-endian bytes; for offset
0x1004, size 2, value 0xBEEF it is `57 04 10 00 00 02 EF BE`. -/
theorem write_request_layout :
    (∀ (state : VirtualCANControllerState) (offset value size : Nat),
      size = 1 ∨ size = 2 ∨ size = 4 →
        (virtual_can_controller_write state offset value size).packet_size = 6 + (size : Int)
        ∧ (virtual_can_controller_write state offset value size).req.cells.take (6 + size) =
            ([0x57] ++ le_bytes 4 (offset % 2 ^ 32) ++ [size]
              ++ le_bytes size (value % 2 ^ (8 * size))).map some)
    ∧ (∀ state : VirtualCANControllerState,
        (virtual_can_controller_write state 0x1004 0xBEEF 2).req.cells.take 8 =
          [some 0x57, some 0x04, some 0x10, some 0x00, some 0x00, some 0x02,
           some 0xEF, some 0xBE]) := by
  refine ⟨fun state offset value size h => ?_, fun state => ?_⟩
  rcases h with rfl | rfl | rfl
  · refine ⟨by simp [virtual_can_controller_write, virtual_can_controller_write_body,
      int_of_unsigned], ?_⟩
    simp [virtual_can_controller_write, virtual_can_controller_write_body, stl_le_p,
      Buffer.store, Buffer.uninit, le_bytes, List.range, List.range.loop, List.replicate]
  · refine ⟨by simp [virtual_can_controller_write, virtual_can_controller_write_body,
      int_of_unsigned], ?_⟩
    simp [virtual_can_controller_write, virtual_can_controller_write_body, stl_le_p, stw_le_p,
      Buffer.store, Buffer.uninit, le_bytes, List.range, List.range.loop, List.replicate]
  · refine ⟨by simp [virtual_can_controller_write, virtual_can_controller_write_body,
      int_of_unsigned], ?_⟩
    simp [virtual_can_controller_write, virtual_can_controller_write_body, stl_le_p,
      Buffer.store, Buffer.uninit, le_bytes, List.range, List.range.loop, List.replicate]
  · simp [virtual_can_controller_write, virtual_can_controller_write_body, stl_le_p, stw_le_p,
      Buffer.store, Buffer.uninit, List.replicate]

/-- Witness for `write_request_layout`: the request for offset 0x1004, value
0xBEEF, size 2. -/
theorem write_request_layout_witness :
    (2 = 1 ∨ 2 = 2 ∨ 2 = 4)
    ∧ (virtual_can_controller_write realized_state 0x1004 0xBEEF 2).packet_size = 8
    ∧ (virtual_can_controller_write realized_state 0x1004 0xBEEF 2).req.cells.take 8 =
        [some 0x57, some 0x04, some 0x10, some 0x00, some 0x00, some 0x02,
         some 0xEF, some 0xBE] :=
  ⟨by decide, (write_request_layout.1 realized_state 0x1004 0xBEEF 2 (by decide)).1,
    write_request_layout.2 realized_state⟩

/-- The value decoded for a valid size depends only on the first `size` bytes
of the buffer and is their little-endian value. -/
theorem read_decode_take (buf : List Nat) (size : Nat)
    (hlen : size ≤ buf.length) (hsize : size = 1 ∨ size = 2 ∨ size = 4) :
    (virtual_can_controller_read_decode buf size).1 = le_value (buf.take size) := by
  rcases hsize with rfl | rfl | rfl
  · rcases buf with _ | ⟨a, t⟩
    · simp at hlen
    · simp [virtual_can_controller_read_decode, le_value]
  · rcases buf with _ | ⟨a, _ | ⟨b, t⟩⟩
    · simp at hlen
    · simp at hlen
    · simp [virtual_can_controller_read_decode, lduw_le_p, le_value]
  · rcases buf with _ | ⟨a, _ | ⟨b, _ | ⟨c, _ | ⟨d, t⟩⟩⟩⟩
    · simp at hlen
    · simp at hlen
    · simp at hlen
    · simp at hlen
    · simp [virtual_can_controller_read_decode, ldl_le_p, le_value]
      omega

/-- The little-endian value of `n` bytes is below `2 ^ (8 * n)`. -/
theorem le_value_lt (bs : List Nat) (h : ∀ b ∈ bs, b < 256) :
    le_value bs < 2 ^ (8 * bs.length) := by
  induction bs with
  | nil => simp [le_value]
  | cons b bs ih =>
    have hb : b < 256 := h b (List.mem_cons_self _ _)
    have ht : le_value bs < 2 ^ (8 * bs.length) :=
      ih (fun x hx => h x (List.mem_cons_of_mem _ hx))
    have hp : (2 : Nat) ^ (8 * (b :: bs).length) = 256 * 2 ^ (8 * bs.length) := by
      rw [List.length_cons, Nat.mul_succ, Nat.pow_add]
      norm_num [Nat.mul_comm]
    rw [hp]
    simp only [le_value]
    omega

/-- C3: for every contents of the 8-byte response buffer and every size in
{1,2,4}, the decode step of `virtual_can_controller_read` yields the unsigned
little-endian integer formed by the first `size` bytes of the buffer; the
result is below `2 ^ (8 * size)`, hence zero-extended in 64 bits, also for
size 4 with the top bit of byte 3 set; no diagnostic is reported; and a
buffer that agrees on the first `size` bytes decodes to the same value. -/
theorem read_decode_little_endian (buf : List Nat) (size : Nat)
    (hlen : buf.length = 8) (hbytes : ∀ b ∈ buf, b < 256)
    (hsize : size = 1 ∨ size = 2 ∨ size = 4) :
    (virtual_can_controller_read_decode buf size).1 = le_value (buf.take size)
    ∧ (virtual_can_controller_read_decode buf size).1 < 2 ^ (8 * size)
    ∧ (virtual_can_controller_read_decode buf size).1 < 2 ^ 64
    ∧ (virtual_can_controller_read_decode buf size).2.2 = []
    ∧ (∀ other : List Nat, other.length = 8 → other.take size = buf.take size →
        (virtual_can_controller_read_decode other size).1 =
          (virtual_can_controller_read_decode buf size).1) := by
  have hle : size ≤ buf.length := by omega
  have hval := read_decode_take buf size hle hsize
  have hlt : le_value (buf.take size) < 2 ^ (8 * size) := by
    have h1 := le_value_lt (buf.take size) (fun b hb => hbytes b (List.mem_of_mem_take hb))
    rwa [List.length_take, Nat.min_eq_left hle] at h1
  refine ⟨hval, hval ▸ hlt, ?_, ?_, ?_⟩
  · rw [hval]
    refine lt_of_lt_of_le hlt (Nat.pow_le_pow_right (by norm_num) ?_)
    omega
  · rcases hsize with rfl | rfl | rfl <;> simp [virtual_can_controller_read_decode]
  · intro other hother htake
    rw [hval, read_decode_take other size (by omega) hsize, htake]

/-- Witness for `read_decode_little_endian`: size 4 on a buffer whose byte 3
has its top bit set. -/
theorem read_decode_little_endian_witness :
    [0x78, 0x56, 0x34, 0x92, 0xAA, 0xBB, 0xCC, 0xDD].length = 8
    ∧ (∀ b ∈ [0x78, 0x56, 0x34, 0x92, 0xAA, 0xBB, 0xCC, 0xDD], b < 256)
    ∧ (4 = 1 ∨ 4 = 2 ∨ 4 = 4)
    ∧ (virtual_can_controller_read_decode [0x78, 0x56, 0x34, 0x92, 0xAA, 0xBB, 0xCC, 0xDD] 4).1
        = 0x92345678
    ∧ (virtual_can_controller_read_decode [0x78, 0x56, 0x34, 0x92, 0xAA, 0xBB, 0xCC, 0xDD] 4).1
        < 2 ^ (8 * 4) := by
  have h := read_decode_little_endian [0x78, 0x56, 0x34, 0x92, 0xAA, 0xBB, 0xCC, 0xDD] 4
    (by decide) (by decide) (by decide)
  exact ⟨by decide, by decide, by decide, h.1.trans (by decide), h.2.1⟩

/-- The data bytes of a write request: cells `6 .. 6 + size - 1` of the request
buffer at return. -/
theorem write_request_data (state : VirtualCANControllerState) (offset value size : Nat)
    (hsize : size = 1 ∨ size = 2 ∨ size = 4) :
    bytes_of (((virtual_can_controller_write state offset value size).req.cells.drop 6).take size)
      = le_bytes size (value % 2 ^ (8 * size)) := by
  rcases hsize with rfl | rfl | rfl <;>
    simp [virtual_can_controller_write, virtual_can_controller_write_body, stl_le_p, stw_le_p,
      Buffer.store, Buffer.uninit, le_bytes, List.range, List.range.loop, List.replicate,
      bytes_of]

/-- C4: round trip.  For every offset, value and size in {1,2,4}, the decode
step of the read handler, applied with that size to the data bytes (bytes
`6 .. 6 + size - 1`) of the write request built for (offset, size, value),
followed by any further buffer contents, yields `value % 2 ^ (8 * size)`, a
number below `2 ^ 64`; for a value below `2 ^ (8 * size)` it yields the value
itself. -/
theorem write_read_round_trip (state : VirtualCANControllerState)
    (offset value size : Nat) (rest : List Nat)
    (hsize : size = 1 ∨ size = 2 ∨ size = 4) :
    (virtual_can_controller_read_decode
        (bytes_of (((virtual_can_controller_write state offset value size).req.cells.drop 6).take
          size) ++ rest) size).1 = value % 2 ^ (8 * size)
    ∧ value % 2 ^ (8 * size) < 2 ^ 64
    ∧ (value < 2 ^ (8 * size) →
        (virtual_can_controller_read_decode
          (bytes_of (((virtual_can_controller_write state offset value size).req.cells.drop
            6).take size) ++ rest) size).1 = value) := by
  have key : (virtual_can_controller_read_decode
      (bytes_of (((virtual_can_controller_write state offset value size).req.cells.drop 6).take
        size) ++ rest) size).1 = value % 2 ^ (8 * size) := by
    rw [write_request_data state offset value size hsize]
    rcases hsize with rfl | rfl | rfl
    · simp [virtual_can_controller_read_decode, le_bytes, List.range, List.range.loop]
    · simp [virtual_can_controller_read_decode, lduw_le_p, le_bytes, List.range, List.range.loop]
      omega
    · simp [virtual_can_controller_read_decode, ldl_le_p, le_bytes, List.range, List.range.loop]
      omega
  refine ⟨key, ?_, fun hv => ?_⟩
  · have h1 : value % 2 ^ (8 * size) < 2 ^ (8 * size) := Nat.mod_lt _ (by positivity)
    refine lt_of_lt_of_le h1 (Nat.pow_le_pow_right (by norm_num) ?_)
    omega
  · rw [key, Nat.mod_eq_of_lt hv]

/-- Witness for `write_read_round_trip`: a 32-bit value with its top bit set,
written with size 4 and decoded from an 8-byte buffer. -/
theorem write_read_round_trip_witness :
    (4 = 1 ∨ 4 = 2 ∨ 4 = 4)
    ∧ (virtual_can_controller_read_decode
        (bytes_of (((virtual_can_controller_write realized_state 0x1004 0x1DEADBEEF 4).req.cells.drop
          6).take 4) ++ [0, 0, 0, 0]) 4).1 = 0xDEADBEEF := by
  have h := write_read_round_trip realized_state 0x1004 0x1DEADBEEF 4 [0, 0, 0, 0] (by decide)
  exact ⟨by decide, h.1.trans (by norm_num)⟩

/-- C5: for every offset, value and size outside {1,2,4},
`virtual_can_controller_write` reports the invalid-size error and returns
without reaching its send step: its calls are exactly lock, the invalid-size
report, unlock (so the "Sending write request" line is never printed and no
send failure is reported), whatever the send would have returned; the lock is
free at return. -/
theorem write_invalid_size_not_sent (state : VirtualCANControllerState)
    (offset value size : Nat) (hsize : size ≠ 1 ∧ size ≠ 2 ∧ size ≠ 4) :
    (virtual_can_controller_write state offset value size).trace =
        [Event.mutex_lock, Event.error_report (Report.invalid_write_size size),
         Event.mutex_unlock]
    ∧ (∀ a n v : Nat, Event.printf_sending_write a n v ∉
        (virtual_can_controller_write state offset value size).trace)
    ∧ Event.error_report Report.send_write_failed ∉
        (virtual_can_controller_write state offset value size).trace
    ∧ (virtual_can_controller_write state offset value size).state.lock = false
    ∧ (∀ ret_send : Int,
        (virtual_can_controller_write_body ret_send state offset value size).trace =
          (virtual_can_controller_write state offset value size).trace) := by
  obtain ⟨h1, h2, h4⟩ := hsize
  have body : ∀ ret_send : Int,
      (virtual_can_controller_write_body ret_send state offset value size).trace =
        [Event.mutex_lock, Event.error_report (Report.invalid_write_size size),
         Event.mutex_unlock] := by
    intro ret_send
    simp [virtual_can_controller_write_body, h1, h2, h4]
  have htr := body (int_of_unsigned (6 + size))
  refine ⟨htr, ?_, ?_, ?_, ?_⟩
  · intro a n v
    rw [virtual_can_controller_write, htr]
    simp
  · rw [virtual_can_controller_write, htr]
    simp
  · simp [virtual_can_controller_write, virtual_can_controller_write_body, h1, h2, h4,
      qemu_mutex_unlock]
  · intro ret_send
    rw [body ret_send, virtual_can_controller_write, htr]

/-- Witness for `write_invalid_size_not_sent`: a write of size 3. -/
theorem write_invalid_size_not_sent_witness :
    (3 ≠ 1 ∧ 3 ≠ 2 ∧ 3 ≠ 4)
    ∧ (virtual_can_controller_write realized_state 0x10 0xABCDEF 3).trace =
        [Event.mutex_lock, Event.error_report (Report.invalid_write_size 3),
         Event.mutex_unlock]
    ∧ (virtual_can_controller_write realized_state 0x10 0xABCDEF 3).state.lock = false :=
  ⟨by decide,
    (write_invalid_size_not_sent realized_state 0x10 0xABCDEF 3 (by decide)).1,
    (write_invalid_size_not_sent realized_state 0x10 0xABCDEF 3 (by decide)).2.2.2.1⟩

/-- An `unsigned` value survives the conversion to `int` and back. -/
theorem unsigned_of_int_of_unsigned (n : Nat) (h : n < 2 ^ 32) :
    unsigned_of_int (int_of_unsigned n) = n := by
  unfold unsigned_of_int int_of_unsigned
  have hn : n % 2 ^ 32 = n := Nat.mod_eq_of_lt h
  rw [hn]
  split <;> omega

/-- The trace of a read of a size outside {1,2,4}. -/
theorem read_invalid_size_trace (state : VirtualCANControllerState) (offset size : Nat)
    (h32 : size < 2 ^ 32) (hsize : size ≠ 1 ∧ size ≠ 2 ∧ size ≠ 4) :
    (virtual_can_controller_read state offset size).trace =
      [Event.printf_read (offset % 2 ^ 32) size, Event.mutex_lock,
       Event.printf_sending_read (offset % 2 ^ 32) size,
       Event.error_report (Report.invalid_read_size size), Event.mutex_unlock] := by
  obtain ⟨h1, h2, h4⟩ := hsize
  have hs : size_t_of_int 6 = 6 := by decide
  simp [virtual_can_controller_read, virtual_can_controller_read_body,
    virtual_can_controller_read_decode, hs, unsigned_of_int_of_unsigned size h32, h1, h2, h4]

/-- C6, as stated, fails at offset 0, size 3: `virtual_can_controller_read`
prints "Sending read request" and passes the send and the receive length
checks before the `switch` reports the invalid size; with a receive that
returns 0 the same access reports a failed receive, not an invalid size, so
the receive step precedes the size check. -/
theorem read_invalid_size_counterexample :
    (3 ≠ 1 ∧ 3 ≠ 2 ∧ 3 ≠ 4)
    ∧ (virtual_can_controller_read realized_state 0 3).trace =
        [Event.printf_read 0 3, Event.mutex_lock, Event.printf_sending_read 0 3,
         Event.error_report (Report.invalid_read_size 3), Event.mutex_unlock]
    ∧ Event.printf_sending_read 0 3 ∈ (virtual_can_controller_read realized_state 0 3).trace
    ∧ (virtual_can_controller_read_body 6 0 (List.replicate 8 0) realized_state 0 3).trace =
        [Event.printf_read 0 3, Event.mutex_lock, Event.printf_sending_read 0 3,
         Event.error_report Report.read_response_failed, Event.mutex_unlock]
    ∧ ¬ (∀ (state : VirtualCANControllerState) (offset size : Nat),
          size ≠ 1 ∧ size ≠ 2 ∧ size ≠ 4 →
            ∀ a n : Nat, Event.printf_sending_read a n ∉
              (virtual_can_controller_read state offset size).trace) := by
  refine ⟨by decide, by decide, by decide, by decide, fun h => ?_⟩
  exact h realized_state 0 3 (by decide) 0 3 (by decide)

/-- C6, amended: for every offset and every `unsigned` size outside {1,2,4},
`virtual_can_controller_read` builds the request, prints "Sending read
request", passes both length checks, and only then reports the invalid size
in its `switch`; it loads nothing from the response buffer, returns 0 and
leaves the lock free. -/
theorem read_invalid_size_detected_in_decode (state : VirtualCANControllerState)
    (offset size : Nat) (h32 : size < 2 ^ 32) (hsize : size ≠ 1 ∧ size ≠ 2 ∧ size ≠ 4) :
    (virtual_can_controller_read state offset size).trace =
        [Event.printf_read (offset % 2 ^ 32) size, Event.mutex_lock,
         Event.printf_sending_read (offset % 2 ^ 32) size,
         Event.error_report (Report.invalid_read_size size), Event.mutex_unlock]
    ∧ (virtual_can_controller_read state offset size).req.cells =
        ([0x52] ++ le_bytes 4 (offset % 2 ^ 32) ++ [size % 256]).map some
    ∧ (virtual_can_controller_read state offset size).buf_loaded = []
    ∧ (virtual_can_controller_read state offset size).value = 0
    ∧ (virtual_can_controller_read state offset size).state.lock = false := by
  refine ⟨read_invalid_size_trace state offset size h32 hsize, ?_, ?_, ?_, ?_⟩
  · rw [virtual_can_controller_read, read_body_req]
    simp [stl_le_p, Buffer.store, Buffer.init, le_bytes, List.range, List.range.loop]
  all_goals
    obtain ⟨h1, h2, h4⟩ := hsize
    have hs : size_t_of_int 6 = 6 := by decide
    simp [virtual_can_controller_read, virtual_can_controller_read_body,
      virtual_can_controller_read_decode, hs, unsigned_of_int_of_unsigned size h32, h1, h2, h4,
      qemu_mutex_unlock]

/-- Witness for `read_invalid_size_detected_in_decode`: a read of size 3 at
offset 0x1000. -/
theorem read_invalid_size_detected_in_decode_witness :
    (3 < 2 ^ 32) ∧ (3 ≠ 1 ∧ 3 ≠ 2 ∧ 3 ≠ 4)
    ∧ (virtual_can_controller_read realized_state 0x1000 3).trace =
        [Event.printf_read (0x1000 % 2 ^ 32) 3, Event.mutex_lock,
         Event.printf_sending_read (0x1000 % 2 ^ 32) 3,
         Event.error_report (Report.invalid_read_size 3), Event.mutex_unlock]
    ∧ (virtual_can_controller_read realized_state 0x1000 3).value = 0 :=
  ⟨by decide, by decide,
    (read_invalid_size_detected_in_decode realized_state 0x1000 3 (by decide) (by decide)).1,
    (read_invalid_size_detected_in_decode realized_state 0x1000 3 (by decide)
      (by decide)).2.2.2.1⟩

/-- C7: whenever `virtual_can_controller_read` takes a failure path (the send
length check fails, the receive length check fails, or the size is outside
{1,2,4}) it returns 0, and so whenever it reports any error; in particular
the handler returns 0 for every offset and every size outside {1,2,4}. -/
theorem read_failure_returns_zero :
    (∀ (ret_send ret_recv : Int) (buf : List Nat) (state : VirtualCANControllerState)
        (offset size : Nat),
        (size_t_of_int ret_send ≠ 6 ∨ unsigned_of_int ret_recv ≠ size
          ∨ (size ≠ 1 ∧ size ≠ 2 ∧ size ≠ 4)) →
        (virtual_can_controller_read_body ret_send ret_recv buf state offset size).value = 0)
    ∧ (∀ (ret_send ret_recv : Int) (buf : List Nat) (state : VirtualCANControllerState)
        (offset size : Nat) (r : Report),
        Event.error_report r ∈
          (virtual_can_controller_read_body ret_send ret_recv buf state offset size).trace →
        (virtual_can_controller_read_body ret_send ret_recv buf state offset size).value = 0)
    ∧ (∀ (state : VirtualCANControllerState) (offset size : Nat),
        size ≠ 1 ∧ size ≠ 2 ∧ size ≠ 4 →
        (virtual_can_controller_read state offset size).value = 0) := by
  have main : ∀ (ret_send ret_recv : Int) (buf : List Nat) (state : VirtualCANControllerState)
      (offset size : Nat),
      (size_t_of_int ret_send ≠ 6 ∨ unsigned_of_int ret_recv ≠ size
        ∨ (size ≠ 1 ∧ size ≠ 2 ∧ size ≠ 4)) →
      (virtual_can_controller_read_body ret_send ret_recv buf state offset size).value = 0 := by
    intro ret_send ret_recv buf state offset size h
    unfold virtual_can_controller_read_body
    simp only []
    split_ifs with hs hr
    · rfl
    · rfl
    · rcases h with h | h | ⟨h1, h2, h4⟩
      · exact absurd h hs
      · exact absurd h hr
      · simp [virtual_can_controller_read_decode, h1, h2, h4]
  refine ⟨main, ?_, fun state offset size h => main _ _ _ state offset size (Or.inr (Or.inr h))⟩
  intro ret_send ret_recv buf state offset size r hmem
  by_cases hs : size_t_of_int ret_send ≠ 6
  · exact main _ _ _ _ _ _ (Or.inl hs)
  by_cases hr : unsigned_of_int ret_recv ≠ size
  · exact main _ _ _ _ _ _ (Or.inr (Or.inl hr))
  by_cases hv : size ≠ 1 ∧ size ≠ 2 ∧ size ≠ 4
  · exact main _ _ _ _ _ _ (Or.inr (Or.inr hv))
  exfalso
  have hv2 : size = 1 ∨ size = 2 ∨ size = 4 := by omega
  rcases hv2 with rfl | rfl | rfl <;>
    simp [virtual_can_controller_read_body, virtual_can_controller_read_decode, hs, hr] at hmem

/-- Witness for `read_failure_returns_zero`: a failed send, a short receive,
and a read of size 3. -/
theorem read_failure_returns_zero_witness :
    (size_t_of_int (-1) ≠ 6
      ∧ (virtual_can_controller_read_body (-1) 4 [0x78, 0x56, 0x34, 0x12, 0, 0, 0, 0]
          realized_state 0x1000 4).value = 0)
    ∧ (unsigned_of_int 1 ≠ 4
      ∧ (virtual_can_controller_read_body 6 1 [0x78, 0x56, 0x34, 0x12, 0, 0, 0, 0]
          realized_state 0x1000 4).value = 0)
    ∧ ((3 ≠ 1 ∧ 3 ≠ 2 ∧ 3 ≠ 4)
      ∧ (virtual_can_controller_read realized_state 0x1000 3).value = 0) :=
  ⟨⟨by decide, read_failure_returns_zero.1 (-1) 4 _ realized_state 0x1000 4
      (Or.inl (by decide))⟩,
    ⟨by decide, read_failure_returns_zero.1 6 1 _ realized_state 0x1000 4
      (Or.inr (Or.inl (by decide)))⟩,
    ⟨by decide, read_failure_returns_zero.2.2 realized_state 0x1000 3 (by decide)⟩⟩

/-- The lock discipline of the read body, on every branch. -/
theorem read_body_lock_discipline (ret_send ret_recv : Int) (buf : List Nat)
    (state : VirtualCANControllerState) (offset size : Nat) :
    lock_discipline
      (virtual_can_controller_read_body ret_send ret_recv buf state offset size).trace
      (virtual_can_controller_read_body ret_send ret_recv buf state offset size).state := by
  unfold virtual_can_controller_read_body virtual_can_controller_read_decode lock_discipline
  simp only []
  split_ifs <;>
    simp [List.count_cons, lock_after, qemu_mutex_unlock, List.getLast?]

/-- The lock discipline of the write body, on every branch. -/
theorem write_body_lock_discipline (ret_send : Int)
    (state : VirtualCANControllerState) (offset value size : Nat) :
    lock_discipline
      (virtual_can_controller_write_body ret_send state offset value size).trace
      (virtual_can_controller_write_body ret_send state offset value size).state := by
  unfold virtual_can_controller_write_body lock_discipline
  simp only []
  split_ifs <;>
    simp [List.count_cons, lock_after, qemu_mutex_unlock, List.getLast?]

/-- C8: with the lock as explicit state, on every input and every branch
(valid and invalid sizes, failed send, failed receive)
`virtual_can_controller_read` and `virtual_can_controller_write` lock the
mutex exactly once and unlock it exactly once, as their last call, so a
handler started with the lock free ends with the lock free. -/
theorem handlers_lock_discipline :
    (∀ (ret_send ret_recv : Int) (buf : List Nat) (state : VirtualCANControllerState)
        (offset size : Nat),
        lock_discipline
          (virtual_can_controller_read_body ret_send ret_recv buf state offset size).trace
          (virtual_can_controller_read_body ret_send ret_recv buf state offset size).state)
    ∧ (∀ (ret_send : Int) (state : VirtualCANControllerState) (offset value size : Nat),
        lock_discipline
          (virtual_can_controller_write_body ret_send state offset value size).trace
          (virtual_can_controller_write_body ret_send state offset value size).state)
    ∧ (∀ (state : VirtualCANControllerState) (offset size : Nat),
        lock_discipline (virtual_can_controller_read state offset size).trace
          (virtual_can_controller_read state offset size).state)
    ∧ (∀ (state : VirtualCANControllerState) (offset value size : Nat),
        lock_discipline (virtual_can_controller_write state offset value size).trace
          (virtual_can_controller_write state offset value size).state) :=
  ⟨read_body_lock_discipline, write_body_lock_discipline,
    fun state offset size => read_body_lock_discipline _ _ _ state offset size,
    fun state offset value size => write_body_lock_discipline _ state offset value size⟩

/-- The state at return of the read body is the state at entry with the lock
free. -/
theorem read_body_state (ret_send ret_recv : Int) (buf : List Nat)
    (state : VirtualCANControllerState) (offset size : Nat) :
    (virtual_can_controller_read_body ret_send ret_recv buf state offset size).state =
      { state with lock := false } := by
  unfold virtual_can_controller_read_body
  simp only []
  split_ifs <;> rfl

/-- The state at return of the write body is the state at entry with the lock
free. -/
theorem write_body_state (ret_send : Int) (state : VirtualCANControllerState)
    (offset value size : Nat) :
    (virtual_can_controller_write_body ret_send state offset value size).state =
      { state with lock := false } := by
  unfold virtual_can_controller_write_body
  simp only []
  split_ifs <;> rfl

/-- C11: `virtual_can_controller_realize` sets `base_addr` to 0x40006400, which
is below `2 ^ 32`, and on every input and every branch neither
`virtual_can_controller_read` nor `virtual_can_controller_write` changes
`base_addr` or `mmio`: the state at return is the state at entry with the lock
free. -/
theorem base_addr_fixed :
    (∀ state : VirtualCANControllerState,
        (virtual_can_controller_realize state).base_addr = 0x40006400
        ∧ (virtual_can_controller_realize state).base_addr < 2 ^ 32)
    ∧ (∀ (ret_send ret_recv : Int) (buf : List Nat) (state : VirtualCANControllerState)
        (offset size : Nat),
        (virtual_can_controller_read_body ret_send ret_recv buf state offset size).state =
          { state with lock := false })
    ∧ (∀ (ret_send : Int) (state : VirtualCANControllerState) (offset value size : Nat),
        (virtual_can_controller_write_body ret_send state offset value size).state =
          { state with lock := false })
    ∧ (∀ (state : VirtualCANControllerState) (offset size : Nat),
        (virtual_can_controller_read state offset size).state.base_addr = state.base_addr
        ∧ (virtual_can_controller_read state offset size).state.mmio = state.mmio)
    ∧ (∀ (state : VirtualCANControllerState) (offset value size : Nat),
        (virtual_can_controller_write state offset value size).state.base_addr
          = state.base_addr
        ∧ (virtual_can_controller_write state offset value size).state.mmio = state.mmio)
    ∧ (∀ (offset value size : Nat),
        (virtual_can_controller_read realized_state offset size).state.base_addr = 0x40006400
        ∧ (virtual_can_controller_write realized_state offset value size).state.base_addr
            = 0x40006400) := by
  refine ⟨fun state => ⟨rfl, by simp [virtual_can_controller_realize]⟩,
    read_body_state, write_body_state, fun state offset size => ?_,
    fun state offset value size => ?_, fun offset value size => ?_⟩
  · rw [virtual_can_controller_read, read_body_state]
    exact ⟨rfl, rfl⟩
  · rw [virtual_can_controller_write, write_body_state]
    exact ⟨rfl, rfl⟩
  · rw [virtual_can_controller_read, read_body_state, virtual_can_controller_write,
      write_body_state]
    exact ⟨rfl, rfl⟩

/-- The decode step on the zero-filled response buffer yields 0. -/
theorem read_decode_zero (size : Nat) :
    (virtual_can_controller_read_decode (List.replicate 8 0) size).1 = 0 := by
  unfold virtual_can_controller_read_decode
  split_ifs <;> simp [lduw_le_p, ldl_le_p, List.replicate]

/-- C12: `virtual_can_controller_read` returns 0 for every device state, every
offset and every size, valid or not: the response buffer is still zero-filled
at the decode step, so the returned value does not depend on the offset or on
the device state. -/
theorem read_returns_zero :
    (∀ (state : VirtualCANControllerState) (offset size : Nat),
        (virtual_can_controller_read state offset size).value = 0)
    ∧ (∀ (state other : VirtualCANControllerState) (offset offset2 size : Nat),
        (virtual_can_controller_read state offset size).value =
          (virtual_can_controller_read other offset2 size).value) := by
  have h : ∀ (state : VirtualCANControllerState) (offset size : Nat),
      (virtual_can_controller_read state offset size).value = 0 := by
    intro state offset size
    unfold virtual_can_controller_read virtual_can_controller_read_body
    simp only []
    split_ifs
    · rfl
    · rfl
    · exact read_decode_zero size
  exact ⟨h, fun state other offset offset2 size => by rw [h, h]⟩

/-- The read handler, for an `unsigned` size, passes both length checks and is
the decode step on the zero-filled buffer between lock and unlock. -/
theorem read_reaches_decode (state : VirtualCANControllerState) (offset size : Nat)
    (h32 : size < 2 ^ 32) :
    virtual_can_controller_read state offset size =
      { value := (virtual_can_controller_read_decode (List.replicate 8 0) size).1,
        state := qemu_mutex_unlock (qemu_mutex_lock state),
        req := (stl_le_p (Buffer.init [0x52, 0, 0, 0, 0, 0]) 1 (offset % 2 ^ 32)).store 5
          (size % 256),
        buf_loaded := (virtual_can_controller_read_decode (List.replicate 8 0) size).2.1,
        trace := [Event.printf_read (offset % 2 ^ 32) size, Event.mutex_lock,
            Event.printf_sending_read (offset % 2 ^ 32) size]
          ++ (virtual_can_controller_read_decode (List.replicate 8 0) size).2.2
          ++ [Event.mutex_unlock] } := by
  have hs : size_t_of_int 6 = 6 := by decide
  simp [virtual_can_controller_read, virtual_can_controller_read_body, hs,
    unsigned_of_int_of_unsigned size h32]

/-- The decode step reports nothing but an invalid read size. -/
theorem read_decode_reports (buf : List Nat) (size : Nat) (e : Event)
    (he : e ∈ (virtual_can_controller_read_decode buf size).2.2) :
    e = Event.error_report (Report.invalid_read_size size) := by
  unfold virtual_can_controller_read_decode at he
  split_ifs at he <;> simp at he
  exact he

/-- C13: the transport-error branches are not taken.  For every state, offset,
value and every `unsigned` size (below `2 ^ 32`), the send-length check and
the receive-length check of `virtual_can_controller_read` and the send-length
check of `virtual_can_controller_write` succeed: no "failed to send" and no
"failed to read response" error is reported, and the read handler reaches its
decode step, whose value it returns. -/
theorem transport_checks_never_fail :
    size_t_of_int 6 = 6
    ∧ (∀ size : Nat, size < 2 ^ 32 → unsigned_of_int (int_of_unsigned size) = size)
    ∧ (∀ (state : VirtualCANControllerState) (offset size : Nat), size < 2 ^ 32 →
        Event.error_report Report.send_read_failed ∉
            (virtual_can_controller_read state offset size).trace
        ∧ Event.error_report Report.read_response_failed ∉
            (virtual_can_controller_read state offset size).trace
        ∧ (virtual_can_controller_read state offset size).trace =
            [Event.printf_read (offset % 2 ^ 32) size, Event.mutex_lock,
              Event.printf_sending_read (offset % 2 ^ 32) size]
            ++ (virtual_can_controller_read_decode (List.replicate 8 0) size).2.2
            ++ [Event.mutex_unlock]
        ∧ (virtual_can_controller_read state offset size).value =
            (virtual_can_controller_read_decode (List.replicate 8 0) size).1
        ∧ (virtual_can_controller_read state offset size).buf_loaded =
            (virtual_can_controller_read_decode (List.replicate 8 0) size).2.1)
    ∧ (∀ (state : VirtualCANControllerState) (offset value size : Nat),
        Event.error_report Report.send_write_failed ∉
          (virtual_can_controller_write state offset value size).trace) := by
  refine ⟨by decide, unsigned_of_int_of_unsigned, fun state offset size h32 => ?_,
    fun state offset value size => ?_⟩
  · rw [read_reaches_decode state offset size h32]
    refine ⟨?_, ?_, rfl, rfl, rfl⟩
    · intro hmem
      simp only [List.mem_append, List.mem_cons, List.mem_singleton, List.not_mem_nil,
        or_false, reduceCtorEq, false_or] at hmem
      have := read_decode_reports _ _ _ hmem
      simp at this
    · intro hmem
      simp only [List.mem_append, List.mem_cons, List.mem_singleton, List.not_mem_nil,
        or_false, reduceCtorEq, false_or] at hmem
      have := read_decode_reports _ _ _ hmem
      simp at this
  · unfold virtual_can_controller_write virtual_can_controller_write_body
    simp only []
    split_ifs with h1 hne h2 hne h4 hne
    all_goals first
      | exact absurd rfl hne
      | simp

/-- Witness for `transport_checks_never_fail`: the largest `unsigned` size,
whose conversion to `int` is negative, and a read of size 4. -/
theorem transport_checks_never_fail_witness :
    (4294967295 < 2 ^ 32)
    ∧ unsigned_of_int (int_of_unsigned 4294967295) = 4294967295
    ∧ (4 < 2 ^ 32)
    ∧ Event.error_report Report.read_response_failed ∉
        (virtual_can_controller_read realized_state 0x1000 4).trace :=
  ⟨by decide, transport_checks_never_fail.2.1 4294967295 (by decide), by decide,
    (transport_checks_never_fail.2.2.1 realized_state 0x1000 4 (by decide)).2.1⟩

/-- The indices the write body stores to in `req`, by size. -/
theorem write_body_stored (ret_send : Int) (state : VirtualCANControllerState)
    (offset value size : Nat) :
    (virtual_can_controller_write_body ret_send state offset value size).req.stored =
      if size = 1 ∨ size = 2 ∨ size = 4 then List.range (6 + size) else List.range 6 := by
  unfold virtual_can_controller_write_body
  simp only []
  split_ifs with h1 hne hv h2 hne hv h4 hne hv hv <;>
    first
      | omega
      | (subst_vars
         simp [stl_le_p, stw_le_p, Buffer.store, Buffer.uninit, List.range, List.range.loop])

/-- The write body leaves `req` a 14-cell array. -/
theorem write_body_cells_length (ret_send : Int) (state : VirtualCANControllerState)
    (offset value size : Nat) :
    (virtual_can_controller_write_body ret_send state offset value size).req.cells.length
      = 14 := by
  unfold virtual_can_controller_write_body
  simp only []
  split_ifs <;> simp [stl_le_p, stw_le_p, Buffer.store, Buffer.uninit]

/-- The indices of `buf` the decode step loads are below the size, at most 3. -/
theorem read_decode_loaded (buf : List Nat) (size i : Nat)
    (hi : i ∈ (virtual_can_controller_read_decode buf size).2.1) :
    i < size ∧ i ≤ 3 := by
  unfold virtual_can_controller_read_decode at hi
  split_ifs at hi <;> simp at hi <;> omega

/-- The indices of `buf` the read body loads are those of its decode step, or
none. -/
theorem read_body_loaded (ret_send ret_recv : Int) (buf : List Nat)
    (state : VirtualCANControllerState) (offset size i : Nat)
    (hi : i ∈ (virtual_can_controller_read_body ret_send ret_recv buf state offset
      size).buf_loaded) :
    i ∈ (virtual_can_controller_read_decode buf size).2.1 := by
  unfold virtual_can_controller_read_body at hi
  simp only [] at hi
  split_ifs at hi
  · simp at hi
  · simp at hi
  · exact hi

/-- C14: every buffer access is in bounds, on every input and every branch.
`virtual_can_controller_write` stores to indices `0 .. 5 + size` of its
14-cell request buffer when the size is 1, 2 or 4 (at most index 9) and to
indices `0 .. 5` otherwise; `virtual_can_controller_read` stores to indices
1 to 5 of its 6-cell request buffer (index 0 is set by the initialiser) and
loads only indices below the size, at most 3, of its 8-byte response buffer:
exactly `0 .. size - 1` for a size in {1,2,4}. -/
theorem buffer_accesses_in_bounds :
    (∀ (ret_send : Int) (state : VirtualCANControllerState) (offset value size : Nat),
        (virtual_can_controller_write_body ret_send state offset value size).req.cells.length
          = 14
        ∧ (∀ i ∈ (virtual_can_controller_write_body ret_send state offset value
            size).req.stored, i < 14)
        ∧ (size = 1 ∨ size = 2 ∨ size = 4 →
            (virtual_can_controller_write_body ret_send state offset value size).req.stored
              = List.range (6 + size)
            ∧ ∀ i ∈ (virtual_can_controller_write_body ret_send state offset value
                size).req.stored, i ≤ 9)
        ∧ (size ≠ 1 ∧ size ≠ 2 ∧ size ≠ 4 →
            (virtual_can_controller_write_body ret_send state offset value size).req.stored
              = List.range 6))
    ∧ (∀ (ret_send ret_recv : Int) (buf : List Nat) (state : VirtualCANControllerState)
        (offset size : Nat),
        (virtual_can_controller_read_body ret_send ret_recv buf state offset
            size).req.cells.length = 6
        ∧ (virtual_can_controller_read_body ret_send ret_recv buf state offset
            size).req.stored = [1, 2, 3, 4, 5]
        ∧ (∀ i ∈ (virtual_can_controller_read_body ret_send ret_recv buf state offset
            size).buf_loaded, i < size ∧ i ≤ 3 ∧ i < 8))
    ∧ (∀ (state : VirtualCANControllerState) (offset size : Nat),
        size = 1 ∨ size = 2 ∨ size = 4 →
        (virtual_can_controller_read state offset size).buf_loaded = List.range size
        ∧ (List.replicate 8 0).length = 8) := by
  refine ⟨fun ret_send state offset value size => ?_,
    fun ret_send ret_recv buf state offset size => ?_, fun state offset size hsize => ?_⟩
  · have hst := write_body_stored ret_send state offset value size
    refine ⟨write_body_cells_length ret_send state offset value size, ?_, ?_, ?_⟩
    · intro i hi
      rw [hst] at hi
      split_ifs at hi with hv
      · have := List.mem_range.1 hi
        omega
      · have := List.mem_range.1 hi
        omega
    · intro hv
      rw [hst, if_pos hv]
      refine ⟨rfl, fun i hi => ?_⟩
      have := List.mem_range.1 hi
      omega
    · intro hv
      rw [hst, if_neg (by omega)]
  · rw [read_body_req]
    refine ⟨by simp [stl_le_p, Buffer.store, Buffer.init],
      by simp [stl_le_p, Buffer.store, Buffer.init], fun i hi => ?_⟩
    have := read_decode_loaded buf size i (read_body_loaded _ _ _ _ _ _ _ hi)
    omega
  · refine ⟨?_, by simp⟩
    rw [read_reaches_decode state offset size (by omega)]
    rcases hsize with rfl | rfl | rfl <;>
      simp [virtual_can_controller_read_decode, List.range, List.range.loop]

/-- Witness for `buffer_accesses_in_bounds`: a write of size 4 stores to indices
0 to 9, a write of size 3 to indices 0 to 5, and a read of size 4 loads
indices 0 to 3. -/
theorem buffer_accesses_in_bounds_witness :
    (4 = 1 ∨ 4 = 2 ∨ 4 = 4)
    ∧ (virtual_can_controller_write_body 10 realized_state 0x1004 0xDEADBEEF 4).req.stored
        = List.range (6 + 4)
    ∧ (3 ≠ 1 ∧ 3 ≠ 2 ∧ 3 ≠ 4)
    ∧ (virtual_can_controller_write_body 9 realized_state 0x1004 0xDEADBEEF 3).req.stored
        = List.range 6
    ∧ (virtual_can_controller_read realized_state 0x1000 4).buf_loaded = List.range 4 :=
  ⟨by decide,
    ((buffer_accesses_in_bounds.1 10 realized_state 0x1004 0xDEADBEEF 4).2.2.1
      (by decide)).1,
    by decide,
    (buffer_accesses_in_bounds.1 9 realized_state 0x1004 0xDEADBEEF 3).2.2.2 (by decide),
    (buffer_accesses_in_bounds.2.2 realized_state 0x1000 4 (by decide)).1⟩

/-- The bytes of the read request. -/
theorem read_request_bytes_eq (state : VirtualCANControllerState) (offset size : Nat) :
    read_request_bytes (virtual_can_controller_read state offset size) =
      [0x52, offset % 2 ^ 32 % 256, offset % 2 ^ 32 / 2 ^ 8 % 256,
       offset % 2 ^ 32 / 2 ^ 16 % 256, offset % 2 ^ 32 / 2 ^ 24 % 256, size % 256] := by
  rw [read_request_bytes, virtual_can_controller_read, read_body_req]
  simp [stl_le_p, Buffer.store, Buffer.init, bytes_of]

/-- The bytes of the write request for a valid size. -/
theorem write_request_bytes_eq (state : VirtualCANControllerState)
    (offset value size : Nat) (hsize : size = 1 ∨ size = 2 ∨ size = 4) :
    write_request_bytes (virtual_can_controller_write state offset value size) =
      [0x57, offset % 2 ^ 32 % 256, offset % 2 ^ 32 / 2 ^ 8 % 256,
       offset % 2 ^ 32 / 2 ^ 16 % 256, offset % 2 ^ 32 / 2 ^ 24 % 256, size]
      ++ le_bytes size (value % 2 ^ (8 * size)) := by
  rcases hsize with rfl | rfl | rfl <;>
    simp [write_request_bytes, virtual_can_controller_write, virtual_can_controller_write_body,
      int_of_unsigned, stl_le_p, stw_le_p, Buffer.store, Buffer.uninit, List.replicate,
      bytes_of, le_bytes, List.range, List.range.loop]

/-- Four little-endian bytes of a 32-bit value determine it. -/
theorem le_value_four (v : Nat) :
    le_value [v % 2 ^ 32 % 256, v % 2 ^ 32 / 2 ^ 8 % 256, v % 2 ^ 32 / 2 ^ 16 % 256,
      v % 2 ^ 32 / 2 ^ 24 % 256] = v % 2 ^ 32 := by
  simp only [le_value]
  omega

/-- Equal write requests carry the same offset modulo `2 ^ 32`, the same size
and the same value modulo `2 ^ (8 * size)`. -/
theorem write_request_bytes_inj (s1 s2 : VirtualCANControllerState)
    (o1 o2 v1 v2 n1 n2 : Nat) (h1 : n1 = 1 ∨ n1 = 2 ∨ n1 = 4) (h2 : n2 = 1 ∨ n2 = 2 ∨ n2 = 4)
    (h : write_request_bytes (virtual_can_controller_write s1 o1 v1 n1) =
      write_request_bytes (virtual_can_controller_write s2 o2 v2 n2)) :
    o1 % 2 ^ 32 = o2 % 2 ^ 32 ∧ n1 = n2 ∧ v1 % 2 ^ (8 * n1) = v2 % 2 ^ (8 * n1) := by
  rw [write_request_bytes_eq s1 o1 v1 n1 h1, write_request_bytes_eq s2 o2 v2 n2 h2] at h
  rcases h1 with rfl | rfl | rfl <;> rcases h2 with rfl | rfl | rfl <;>
    simp [le_bytes, List.range, List.range.loop] at h <;>
    (refine ⟨?_, rfl, ?_⟩ <;> omega)

/-- C15: the request encoding is injective up to its truncations.  Two write
requests with sizes in {1,2,4} that are equal byte for byte have the same
offset modulo `2 ^ 32`, the same size and the same value modulo
`2 ^ (8 * size)`; a read request starts with 0x52 and a write request with
0x57, so no read request is a write request or a prefix of one; and for an
offset below `2 ^ 32`, in particular below the region size 0x1000, the
little-endian value of bytes 1 to 4 of either request is the offset. -/
theorem request_encoding_injective :
    (∀ (s1 s2 : VirtualCANControllerState) (o1 o2 v1 v2 n1 n2 : Nat),
        (n1 = 1 ∨ n1 = 2 ∨ n1 = 4) → (n2 = 1 ∨ n2 = 2 ∨ n2 = 4) →
        write_request_bytes (virtual_can_controller_write s1 o1 v1 n1) =
          write_request_bytes (virtual_can_controller_write s2 o2 v2 n2) →
        o1 % 2 ^ 32 = o2 % 2 ^ 32 ∧ n1 = n2 ∧ v1 % 2 ^ (8 * n1) = v2 % 2 ^ (8 * n1))
    ∧ (∀ (s1 s2 : VirtualCANControllerState) (o1 o2 v2 n1 n2 : Nat),
        (n2 = 1 ∨ n2 = 2 ∨ n2 = 4) →
        (read_request_bytes (virtual_can_controller_read s1 o1 n1)).head? = some 0x52
        ∧ (write_request_bytes (virtual_can_controller_write s2 o2 v2 n2)).head? = some 0x57
        ∧ read_request_bytes (virtual_can_controller_read s1 o1 n1) ≠
            write_request_bytes (virtual_can_controller_write s2 o2 v2 n2)
        ∧ ¬ List.IsPrefix (read_request_bytes (virtual_can_controller_read s1 o1 n1))
            (write_request_bytes (virtual_can_controller_write s2 o2 v2 n2)))
    ∧ (∀ (s : VirtualCANControllerState) (o n : Nat), o < 2 ^ 32 →
        le_value (((read_request_bytes (virtual_can_controller_read s o n)).drop 1).take 4)
          = o)
    ∧ (∀ (s : VirtualCANControllerState) (o v n : Nat), (n = 1 ∨ n = 2 ∨ n = 4) →
        o < 2 ^ 32 →
        le_value (((write_request_bytes (virtual_can_controller_write s o v n)).drop 1).take 4)
          = o)
    ∧ (∀ (s : VirtualCANControllerState) (o v n : Nat), (n = 1 ∨ n = 2 ∨ n = 4) →
        o < 0x1000 →
        le_value (((read_request_bytes (virtual_can_controller_read s o n)).drop 1).take 4)
          = o
        ∧ le_value (((write_request_bytes (virtual_can_controller_write s o v n)).drop
            1).take 4) = o) := by
  have hread : ∀ (s : VirtualCANControllerState) (o n : Nat), o < 2 ^ 32 →
      le_value (((read_request_bytes (virtual_can_controller_read s o n)).drop 1).take 4)
        = o := by
    intro s o n ho
    rw [read_request_bytes_eq]
    simp only [List.drop_succ_cons, List.drop_zero, List.take_succ_cons, List.take_zero]
    rw [le_value_four, Nat.mod_eq_of_lt ho]
  have hwrite : ∀ (s : VirtualCANControllerState) (o v n : Nat), (n = 1 ∨ n = 2 ∨ n = 4) →
      o < 2 ^ 32 →
      le_value (((write_request_bytes (virtual_can_controller_write s o v n)).drop 1).take 4)
        = o := by
    intro s o v n hn ho
    rw [write_request_bytes_eq s o v n hn]
    simp only [List.cons_append, List.drop_succ_cons, List.drop_zero, List.take_succ_cons,
      List.take_zero]
    rw [le_value_four, Nat.mod_eq_of_lt ho]
  refine ⟨write_request_bytes_inj, ?_, hread, hwrite, ?_⟩
  · intro s1 s2 o1 o2 v2 n1 n2 h2
    rw [read_request_bytes_eq, write_request_bytes_eq s2 o2 v2 n2 h2]
    refine ⟨rfl, rfl, ?_, ?_⟩
    · intro h
      simp at h
    · intro h
      simp [List.cons_prefix_cons] at h
  · intro s o v n hn ho
    exact ⟨hread s o n (by omega), hwrite s o v n hn (by omega)⟩

/-- Witness for `request_encoding_injective`: two size-2 writes whose offsets
differ by `2 ^ 32` and whose values differ by `2 ^ 16` build the same request,
and the offset 0x1004 is recovered from bytes 1 to 4. -/
theorem request_encoding_injective_witness :
    (2 = 1 ∨ 2 = 2 ∨ 2 = 4)
    ∧ write_request_bytes (virtual_can_controller_write realized_state 0x1004 0xBEEF 2) =
        write_request_bytes
          (virtual_can_controller_write realized_state 0x100001004 0x1BEEF 2)
    ∧ (0x1004 % 2 ^ 32 = 0x100001004 % 2 ^ 32 ∧ 2 = 2
        ∧ 0xBEEF % 2 ^ (8 * 2) = 0x1BEEF % 2 ^ (8 * 2))
    ∧ (0x1004 < 2 ^ 32)
    ∧ le_value (((write_request_bytes
        (virtual_can_controller_write realized_state 0x1004 0xBEEF 2)).drop 1).take 4)
          = 0x1004 :=
  ⟨by decide, by decide,
    request_encoding_injective.1 realized_state realized_state 0x1004 0x100001004 0xBEEF
      0x1BEEF 2 2 (by decide) (by decide) (by decide),
    by decide,
    request_encoding_injective.2.2.2.1 realized_state 0x1004 0xBEEF 2 (by decide) (by decide)⟩

/-- An event other than the two mutex calls leaves the replayed lock as it
is. -/
theorem lock_after_cons_other (held : Bool) (e : Event) (t : List Event)
    (hl : e ≠ Event.mutex_lock) (hu : e ≠ Event.mutex_unlock) :
    lock_after held (e :: t) = lock_after held t := by
  cases e <;> first | rfl | exact absurd rfl hl | exact absurd rfl hu

/-- An event made outside the exchange is not a mutex call. -/
theorem not_mutex_of_not_in_exchange (e : Event) (h : e.in_exchange = false) :
    e ≠ Event.mutex_lock ∧ e ≠ Event.mutex_unlock := by
  cases e <;> simp [Event.in_exchange] at h ⊢

/-- With the first call finished, the execution is the rest of the second. -/
theorem interleave_nil_left (b : List Event) (m : List (Bool × Event))
    (h : Interleave [] b m) : m = tagged true b := by
  induction m generalizing b with
  | nil => cases h; rfl
  | cons z m ih =>
    cases h with
    | second h2 => simp [tagged, ih _ h2]

/-- With the second call finished, the execution is the rest of the first. -/
theorem interleave_nil_right (a : List Event) (m : List (Bool × Event))
    (h : Interleave a [] m) : m = tagged false a := by
  induction m generalizing a with
  | nil => cases h; rfl
  | cons z m ih =>
    cases h with
    | first h1 => simp [tagged, ih _ h1]

/-- The exchange events of a tagged trace. -/
theorem filter_tagged (call : Bool) (t : List Event) :
    (tagged call t).filter (fun e => e.2.in_exchange) = exchange call t := by
  induction t with
  | nil => rfl
  | cons e t ih =>
    simp only [tagged, exchange, List.map_cons, List.filter_cons] at ih ⊢
    by_cases he : e.in_exchange = true <;> simp [he, ih]

/-- While the first call holds the lock and the second has not yet locked, an
admitted execution finishes the exchange of the first call before the
exchange of the second begins. -/
theorem first_inside_serial (c p rest : List Event) (m : List (Bool × Event))
    (hc : ∀ e ∈ c, e.in_exchange = true ∧ e ≠ Event.mutex_lock ∧ e ≠ Event.mutex_unlock)
    (hp : ∀ e ∈ p, e.in_exchange = false)
    (h : Interleave (c ++ [Event.mutex_unlock]) (p ++ Event.mutex_lock :: rest) m)
    (hadm : lock_after true (m.map Prod.snd) ≠ none) :
    m.filter (fun e => e.2.in_exchange) =
      exchange false (c ++ [Event.mutex_unlock])
        ++ exchange true (p ++ Event.mutex_lock :: rest) := by
  induction m generalizing c p with
  | nil =>
    rcases c with _ | ⟨x, c'⟩ <;> rcases p with _ | ⟨y, p'⟩ <;>
      simp only [List.nil_append, List.cons_append] at h <;> cases h
  | cons z m ih =>
    rcases c with _ | ⟨x, c'⟩ <;> rcases p with _ | ⟨y, p'⟩ <;>
      simp only [List.nil_append, List.cons_append] at h
    · cases h with
      | first h1 =>
        rw [interleave_nil_left _ _ h1, List.filter_cons, filter_tagged]
        simp [exchange, tagged, Event.in_exchange]
      | second h2 => simp [lock_after] at hadm
    · cases h with
      | first h1 =>
        rw [interleave_nil_left _ _ h1, List.filter_cons, filter_tagged]
        simp [exchange, tagged, Event.in_exchange]
      | second h2 =>
        have hy := hp y (List.mem_cons_self _ _)
        have hny := not_mutex_of_not_in_exchange y hy
        have hadm2 : lock_after true (m.map Prod.snd) ≠ none := by
          simpa [lock_after_cons_other true y _ hny.1 hny.2] using hadm
        have := ih [] p' hc (fun e he => hp e (List.mem_cons_of_mem _ he))
          (by simpa using h2) hadm2
        simp only [List.nil_append] at this
        simp [List.filter_cons, hy, this, exchange]
    · cases h with
      | first h1 =>
        have hx := hc x (List.mem_cons_self _ _)
        have hadm2 : lock_after true (m.map Prod.snd) ≠ none := by
          simpa [lock_after_cons_other true x _ hx.2.1 hx.2.2] using hadm
        have := ih c' [] (fun e he => hc e (List.mem_cons_of_mem _ he)) hp
          (by simpa using h1) hadm2
        simp only [List.nil_append] at this
        simp [List.filter_cons, hx.1, this, exchange, tagged]
      | second h2 => simp [lock_after] at hadm
    · cases h with
      | first h1 =>
        have hx := hc x (List.mem_cons_self _ _)
        have hadm2 : lock_after true (m.map Prod.snd) ≠ none := by
          simpa [lock_after_cons_other true x _ hx.2.1 hx.2.2] using hadm
        have := ih c' (y :: p') (fun e he => hc e (List.mem_cons_of_mem _ he)) hp
          (by simpa using h1) hadm2
        simp only [List.cons_append] at this
        simp [List.filter_cons, hx.1, this, exchange, tagged]
      | second h2 =>
        have hy := hp y (List.mem_cons_self _ _)
        have hny := not_mutex_of_not_in_exchange y hy
        have hadm2 : lock_after true (m.map Prod.snd) ≠ none := by
          simpa [lock_after_cons_other true y _ hny.1 hny.2] using hadm
        have := ih (x :: c') p' hc (fun e he => hp e (List.mem_cons_of_mem _ he))
          (by simpa using h2) hadm2
        simp only [List.cons_append] at this
        simp [List.filter_cons, hy, this, exchange]

/-- While the second call holds the lock and the first has not yet locked, an
admitted execution finishes the exchange of the second call before the
exchange of the first begins. -/
theorem second_inside_serial (c p rest : List Event) (m : List (Bool × Event))
    (hc : ∀ e ∈ c, e.in_exchange = true ∧ e ≠ Event.mutex_lock ∧ e ≠ Event.mutex_unlock)
    (hp : ∀ e ∈ p, e.in_exchange = false)
    (h : Interleave (p ++ Event.mutex_lock :: rest) (c ++ [Event.mutex_unlock]) m)
    (hadm : lock_after true (m.map Prod.snd) ≠ none) :
    m.filter (fun e => e.2.in_exchange) =
      exchange true (c ++ [Event.mutex_unlock])
        ++ exchange false (p ++ Event.mutex_lock :: rest) := by
  induction m generalizing c p with
  | nil =>
    rcases c with _ | ⟨x, c'⟩ <;> rcases p with _ | ⟨y, p'⟩ <;>
      simp only [List.nil_append, List.cons_append] at h <;> cases h
  | cons z m ih =>
    rcases c with _ | ⟨x, c'⟩ <;> rcases p with _ | ⟨y, p'⟩ <;>
      simp only [List.nil_append, List.cons_append] at h
    · cases h with
      | second h1 =>
        rw [interleave_nil_right _ _ h1, List.filter_cons, filter_tagged]
        simp [exchange, tagged, Event.in_exchange]
      | first h2 => simp [lock_after] at hadm
    · cases h with
      | second h1 =>
        rw [interleave_nil_right _ _ h1, List.filter_cons, filter_tagged]
        simp [exchange, tagged, Event.in_exchange]
      | first h2 =>
        have hy := hp y (List.mem_cons_self _ _)
        have hny := not_mutex_of_not_in_exchange y hy
        have hadm2 : lock_after true (m.map Prod.snd) ≠ none := by
          simpa [lock_after_cons_other true y _ hny.1 hny.2] using hadm
        have := ih [] p' hc (fun e he => hp e (List.mem_cons_of_mem _ he))
          (by simpa using h2) hadm2
        simp only [List.nil_append] at this
        simp [List.filter_cons, hy, this, exchange]
    · cases h with
      | second h1 =>
        have hx := hc x (List.mem_cons_self _ _)
        have hadm2 : lock_after true (m.map Prod.snd) ≠ none := by
          simpa [lock_after_cons_other true x _ hx.2.1 hx.2.2] using hadm
        have := ih c' [] (fun e he => hc e (List.mem_cons_of_mem _ he)) hp
          (by simpa using h1) hadm2
        simp only [List.nil_append] at this
        simp [List.filter_cons, hx.1, this, exchange, tagged]
      | first h2 => simp [lock_after] at hadm
    · cases h with
      | second h1 =>
        have hx := hc x (List.mem_cons_self _ _)
        have hadm2 : lock_after true (m.map Prod.snd) ≠ none := by
          simpa [lock_after_cons_other true x _ hx.2.1 hx.2.2] using hadm
        have := ih c' (y :: p') (fun e he => hc e (List.mem_cons_of_mem _ he)) hp
          (by simpa using h1) hadm2
        simp only [List.cons_append] at this
        simp [List.filter_cons, hx.1, this, exchange, tagged]
      | first h2 =>
        have hy := hp y (List.mem_cons_self _ _)
        have hny := not_mutex_of_not_in_exchange y hy
        have hadm2 : lock_after true (m.map Prod.snd) ≠ none := by
          simpa [lock_after_cons_other true y _ hny.1 hny.2] using hadm
        have := ih (x :: c') p' hc (fun e he => hp e (List.mem_cons_of_mem _ he))
          (by simpa using h2) hadm2
        simp only [List.cons_append] at this
        simp [List.filter_cons, hy, this, exchange]

/-- Two calls that each lock once, make their exchange and unlock last: in an
execution the mutex admits, started with the lock free, the two exchanges are
not interleaved. -/
theorem both_before_serial (pa ca pb cb : List Event) (m : List (Bool × Event))
    (hpa : ∀ e ∈ pa, e.in_exchange = false)
    (hca : ∀ e ∈ ca, e.in_exchange = true ∧ e ≠ Event.mutex_lock ∧ e ≠ Event.mutex_unlock)
    (hpb : ∀ e ∈ pb, e.in_exchange = false)
    (hcb : ∀ e ∈ cb, e.in_exchange = true ∧ e ≠ Event.mutex_lock ∧ e ≠ Event.mutex_unlock)
    (h : Interleave (pa ++ Event.mutex_lock :: (ca ++ [Event.mutex_unlock]))
      (pb ++ Event.mutex_lock :: (cb ++ [Event.mutex_unlock])) m)
    (hadm : lock_after false (m.map Prod.snd) ≠ none) :
    m.filter (fun e => e.2.in_exchange) =
        exchange false (pa ++ Event.mutex_lock :: (ca ++ [Event.mutex_unlock]))
          ++ exchange true (pb ++ Event.mutex_lock :: (cb ++ [Event.mutex_unlock]))
    ∨ m.filter (fun e => e.2.in_exchange) =
        exchange true (pb ++ Event.mutex_lock :: (cb ++ [Event.mutex_unlock]))
          ++ exchange false (pa ++ Event.mutex_lock :: (ca ++ [Event.mutex_unlock])) := by
  induction m generalizing pa pb with
  | nil =>
    rcases pa with _ | ⟨x, pa'⟩ <;> rcases pb with _ | ⟨y, pb'⟩ <;>
      simp only [List.nil_append, List.cons_append] at h <;> cases h
  | cons z m ih =>
    have step_first : ∀ (pb : List Event), (∀ e ∈ pb, e.in_exchange = false) →
        Interleave (ca ++ [Event.mutex_unlock])
          (pb ++ Event.mutex_lock :: (cb ++ [Event.mutex_unlock])) m →
        lock_after false (Event.mutex_lock :: m.map Prod.snd) ≠ none →
        ((false, Event.mutex_lock) :: m).filter (fun e => e.2.in_exchange) =
          exchange false (Event.mutex_lock :: (ca ++ [Event.mutex_unlock]))
            ++ exchange true (pb ++ Event.mutex_lock :: (cb ++ [Event.mutex_unlock])) := by
      intro pb hpb h1 hadm1
      have hadm2 : lock_after true (m.map Prod.snd) ≠ none := by
        simpa [lock_after] using hadm1
      have hL : Event.mutex_lock.in_exchange = true := rfl
      have := first_inside_serial ca pb _ m hca hpb h1 hadm2
      simp [List.filter_cons, hL, this, exchange, tagged]
    have step_second : ∀ (pa : List Event), (∀ e ∈ pa, e.in_exchange = false) →
        Interleave (pa ++ Event.mutex_lock :: (ca ++ [Event.mutex_unlock]))
          (cb ++ [Event.mutex_unlock]) m →
        lock_after false (Event.mutex_lock :: m.map Prod.snd) ≠ none →
        ((true, Event.mutex_lock) :: m).filter (fun e => e.2.in_exchange) =
          exchange true (Event.mutex_lock :: (cb ++ [Event.mutex_unlock]))
            ++ exchange false (pa ++ Event.mutex_lock :: (ca ++ [Event.mutex_unlock])) := by
      intro pa hpa h1 hadm1
      have hadm2 : lock_after true (m.map Prod.snd) ≠ none := by
        simpa [lock_after] using hadm1
      have hL : Event.mutex_lock.in_exchange = true := rfl
      have := second_inside_serial cb pa _ m hcb hpa h1 hadm2
      simp [List.filter_cons, hL, this, exchange, tagged]
    have skip_first : ∀ (x : Event) (pa' pb : List Event),
        (∀ e ∈ x :: pa', e.in_exchange = false) → (∀ e ∈ pb, e.in_exchange = false) →
        Interleave (pa' ++ Event.mutex_lock :: (ca ++ [Event.mutex_unlock]))
          (pb ++ Event.mutex_lock :: (cb ++ [Event.mutex_unlock])) m →
        lock_after false (x :: m.map Prod.snd) ≠ none →
        ((false, x) :: m).filter (fun e => e.2.in_exchange) =
            exchange false (x :: pa' ++ Event.mutex_lock :: (ca ++ [Event.mutex_unlock]))
              ++ exchange true (pb ++ Event.mutex_lock :: (cb ++ [Event.mutex_unlock]))
        ∨ ((false, x) :: m).filter (fun e => e.2.in_exchange) =
            exchange true (pb ++ Event.mutex_lock :: (cb ++ [Event.mutex_unlock]))
              ++ exchange false
                (x :: pa' ++ Event.mutex_lock :: (ca ++ [Event.mutex_unlock])) := by
      intro x pa' pb hpa hpb h1 hadm1
      have hx := hpa x (List.mem_cons_self _ _)
      have hnx := not_mutex_of_not_in_exchange x hx
      have hadm2 : lock_after false (m.map Prod.snd) ≠ none := by
        simpa [lock_after_cons_other false x _ hnx.1 hnx.2] using hadm1
      have := ih pa' pb (fun e he => hpa e (List.mem_cons_of_mem _ he)) hpb h1 hadm2
      simpa [List.filter_cons, hx, exchange] using this
    have skip_second : ∀ (y : Event) (pa pb' : List Event),
        (∀ e ∈ pa, e.in_exchange = false) → (∀ e ∈ y :: pb', e.in_exchange = false) →
        Interleave (pa ++ Event.mutex_lock :: (ca ++ [Event.mutex_unlock]))
          (pb' ++ Event.mutex_lock :: (cb ++ [Event.mutex_unlock])) m →
        lock_after false (y :: m.map Prod.snd) ≠ none →
        ((true, y) :: m).filter (fun e => e.2.in_exchange) =
            exchange false (pa ++ Event.mutex_lock :: (ca ++ [Event.mutex_unlock]))
              ++ exchange true
                (y :: pb' ++ Event.mutex_lock :: (cb ++ [Event.mutex_unlock]))
        ∨ ((true, y) :: m).filter (fun e => e.2.in_exchange) =
            exchange true (y :: pb' ++ Event.mutex_lock :: (cb ++ [Event.mutex_unlock]))
              ++ exchange false (pa ++ Event.mutex_lock :: (ca ++ [Event.mutex_unlock])) := by
      intro y pa pb' hpa hpb h1 hadm1
      have hy := hpb y (List.mem_cons_self _ _)
      have hny := not_mutex_of_not_in_exchange y hy
      have hadm2 : lock_after false (m.map Prod.snd) ≠ none := by
        simpa [lock_after_cons_other false y _ hny.1 hny.2] using hadm1
      have := ih pa pb' hpa (fun e he => hpb e (List.mem_cons_of_mem _ he)) h1 hadm2
      simpa [List.filter_cons, hy, exchange] using this
    rcases pa with _ | ⟨x, pa'⟩ <;> rcases pb with _ | ⟨y, pb'⟩ <;>
      simp only [List.nil_append, List.cons_append] at h ⊢ <;>
      simp only [List.map_cons] at hadm
    · cases h with
      | first h1 => exact Or.inl (step_first [] hpb (by simpa using h1) hadm)
      | second h1 => exact Or.inr (step_second [] hpa (by simpa using h1) hadm)
    · cases h with
      | first h1 => exact Or.inl (step_first (y :: pb') hpb (by simpa using h1) hadm)
      | second h1 => exact skip_second y [] pb' hpa hpb (by simpa using h1) hadm
    · cases h with
      | first h1 => exact skip_first x pa' [] hpa hpb (by simpa using h1) hadm
      | second h1 => exact Or.inr (step_second (x :: pa') hpa (by simpa using h1) hadm)
    · cases h with
      | first h1 => exact skip_first x pa' (y :: pb') hpa hpb (by simpa using h1) hadm
      | second h1 => exact skip_second y (x :: pa') pb' hpa hpb (by simpa using h1) hadm

/-- The trace of the read body: the `printf` on entry, the lock, the calls of
the exchange, the unlock. -/
theorem read_body_trace_shape (ret_send ret_recv : Int) (buf : List Nat)
    (state : VirtualCANControllerState) (offset size : Nat) :
    ∃ c : List Event,
      (virtual_can_controller_read_body ret_send ret_recv buf state offset size).trace =
        [Event.printf_read (offset % 2 ^ 32) size]
          ++ Event.mutex_lock :: (c ++ [Event.mutex_unlock])
      ∧ ∀ e ∈ c, e.in_exchange = true ∧ e ≠ Event.mutex_lock ∧ e ≠ Event.mutex_unlock := by
  unfold virtual_can_controller_read_body
  simp only []
  split_ifs
  · refine ⟨[Event.printf_sending_read (offset % 2 ^ 32) size,
      Event.error_report Report.send_read_failed], by simp, ?_⟩
    intro e he
    simp at he
    rcases he with rfl | rfl <;> simp [Event.in_exchange]
  · refine ⟨[Event.printf_sending_read (offset % 2 ^ 32) size,
      Event.error_report Report.read_response_failed], by simp, ?_⟩
    intro e he
    simp at he
    rcases he with rfl | rfl <;> simp [Event.in_exchange]
  · refine ⟨Event.printf_sending_read (offset % 2 ^ 32) size
      :: (virtual_can_controller_read_decode buf size).2.2, by simp, ?_⟩
    intro e he
    rcases List.mem_cons.1 he with rfl | he2
    · simp [Event.in_exchange]
    · rw [read_decode_reports buf size e he2]
      simp [Event.in_exchange]

/-- The replay of the mutex calls of two traces in sequence. -/
theorem lock_after_append (held : Bool) (s t : List Event) :
    lock_after held (s ++ t) = (lock_after held s).bind fun h => lock_after h t := by
  induction s generalizing held with
  | nil => rfl
  | cons e s ih =>
    cases e <;> cases held <;> simp [lock_after, ih]

/-- Running the first call to its end and then the second is an execution. -/
theorem interleave_sequential (a b : List Event) :
    Interleave a b (tagged false a ++ tagged true b) := by
  induction a with
  | nil =>
    induction b with
    | nil => exact Interleave.done
    | cons y b ih => exact Interleave.second ih
  | cons x a ih => exact Interleave.first ih

/-- The events of a tagged trace, without the tags. -/
theorem map_snd_tagged (call : Bool) (t : List Event) :
    (tagged call t).map Prod.snd = t := by
  induction t with
  | nil => rfl
  | cons e t ih =>
    simp only [tagged, List.map_cons] at ih ⊢
    rw [ih]

/-- The exchange of a read call is its trace from the lock on: everything but
the `printf` on entry. -/
theorem read_body_exchange (call : Bool) (ret_send ret_recv : Int) (buf : List Nat)
    (state : VirtualCANControllerState) (offset size : Nat) :
    exchange call
        (virtual_can_controller_read_body ret_send ret_recv buf state offset size).trace =
      tagged call
        ((virtual_can_controller_read_body ret_send ret_recv buf state offset size).trace.drop 1)
    ∧ ((virtual_can_controller_read_body ret_send ret_recv buf state offset size).trace.drop
        1).head? = some Event.mutex_lock
    ∧ Event.printf_sending_read (offset % 2 ^ 32) size ∈
        (virtual_can_controller_read_body ret_send ret_recv buf state offset size).trace.drop 1
    ∧ (virtual_can_controller_read_body ret_send ret_recv buf state offset size).trace.getLast?
        = some Event.mutex_unlock := by
  unfold virtual_can_controller_read_body virtual_can_controller_read_decode
  simp only []
  split_ifs <;> simp [exchange, tagged, List.filter_cons, Event.in_exchange]

/-- Two read calls in an execution the mutex admits: their exchanges are not
interleaved. -/
theorem read_bodies_serial (rs1 rr1 rs2 rr2 : Int) (buf1 buf2 : List Nat)
    (state1 state2 : VirtualCANControllerState) (offset1 size1 offset2 size2 : Nat)
    (m : List (Bool × Event))
    (hm : Interleave
      (virtual_can_controller_read_body rs1 rr1 buf1 state1 offset1 size1).trace
      (virtual_can_controller_read_body rs2 rr2 buf2 state2 offset2 size2).trace m)
    (hadm : mutex_admits m = true) :
    m.filter (fun e => e.2.in_exchange) =
        exchange false
            (virtual_can_controller_read_body rs1 rr1 buf1 state1 offset1 size1).trace
          ++ exchange true
            (virtual_can_controller_read_body rs2 rr2 buf2 state2 offset2 size2).trace
    ∨ m.filter (fun e => e.2.in_exchange) =
        exchange true
            (virtual_can_controller_read_body rs2 rr2 buf2 state2 offset2 size2).trace
          ++ exchange false
            (virtual_can_controller_read_body rs1 rr1 buf1 state1 offset1 size1).trace := by
  obtain ⟨c1, h1, hc1⟩ := read_body_trace_shape rs1 rr1 buf1 state1 offset1 size1
  obtain ⟨c2, h2, hc2⟩ := read_body_trace_shape rs2 rr2 buf2 state2 offset2 size2
  rw [h1, h2] at hm ⊢
  have hadm2 : lock_after false (m.map Prod.snd) ≠ none := by
    intro hnone
    simp [mutex_admits, hnone] at hadm
  refine both_before_serial _ c1 _ c2 m ?_ hc1 ?_ hc2 hm hadm2
  · intro e he
    rw [List.mem_singleton.1 he]
    rfl
  · intro e he
    rw [List.mem_singleton.1 he]
    rfl

/-- Two read calls always have an execution the mutex admits: the first call
to its end, then the second. -/
theorem read_bodies_admitted (rs1 rr1 rs2 rr2 : Int) (buf1 buf2 : List Nat)
    (state1 state2 : VirtualCANControllerState) (offset1 size1 offset2 size2 : Nat) :
    ∃ m : List (Bool × Event),
      Interleave
        (virtual_can_controller_read_body rs1 rr1 buf1 state1 offset1 size1).trace
        (virtual_can_controller_read_body rs2 rr2 buf2 state2 offset2 size2).trace m
      ∧ mutex_admits m = true := by
  refine ⟨_, interleave_sequential _ _, ?_⟩
  have d1 := (read_body_lock_discipline rs1 rr1 buf1 state1 offset1 size1).2.2.2.1
  have d2 := (read_body_lock_discipline rs2 rr2 buf2 state2 offset2 size2).2.2.2.1
  simp [mutex_admits, List.map_append, map_snd_tagged, lock_after_append, d1, d2]

/-- C9: two concurrent calls of `virtual_can_controller_read` on the same
device never interleave their exchanges.  In every execution of the two calls
that the mutex admits, the events made under the lock (from the lock, through
the "Sending read request" place of the send and the place of the receive or
of the failure report, to the unlock) of one call all come before those of the
other: the request of the second call does not appear before the exchange of
the first is over.  This holds on every branch of the handler body, and an
admitted execution always exists. -/
theorem concurrent_reads_not_interleaved :
    (∀ (state : VirtualCANControllerState) (offset1 size1 offset2 size2 : Nat)
        (m : List (Bool × Event)),
        Interleave (virtual_can_controller_read state offset1 size1).trace
          (virtual_can_controller_read state offset2 size2).trace m →
        mutex_admits m = true →
        (m.filter (fun e => e.2.in_exchange) =
            exchange false (virtual_can_controller_read state offset1 size1).trace
              ++ exchange true (virtual_can_controller_read state offset2 size2).trace
          ∨ m.filter (fun e => e.2.in_exchange) =
            exchange true (virtual_can_controller_read state offset2 size2).trace
              ++ exchange false (virtual_can_controller_read state offset1 size1).trace))
    ∧ (∀ (rs1 rr1 rs2 rr2 : Int) (buf1 buf2 : List Nat) (state : VirtualCANControllerState)
        (offset1 size1 offset2 size2 : Nat) (m : List (Bool × Event)),
        Interleave (virtual_can_controller_read_body rs1 rr1 buf1 state offset1 size1).trace
          (virtual_can_controller_read_body rs2 rr2 buf2 state offset2 size2).trace m →
        mutex_admits m = true →
        (m.filter (fun e => e.2.in_exchange) =
            exchange false
                (virtual_can_controller_read_body rs1 rr1 buf1 state offset1 size1).trace
              ++ exchange true
                (virtual_can_controller_read_body rs2 rr2 buf2 state offset2 size2).trace
          ∨ m.filter (fun e => e.2.in_exchange) =
            exchange true
                (virtual_can_controller_read_body rs2 rr2 buf2 state offset2 size2).trace
              ++ exchange false
                (virtual_can_controller_read_body rs1 rr1 buf1 state offset1 size1).trace))
    ∧ (∀ (call : Bool) (state : VirtualCANControllerState) (offset size : Nat),
        exchange call (virtual_can_controller_read state offset size).trace =
          tagged call ((virtual_can_controller_read state offset size).trace.drop 1)
        ∧ ((virtual_can_controller_read state offset size).trace.drop 1).head?
            = some Event.mutex_lock
        ∧ Event.printf_sending_read (offset % 2 ^ 32) size ∈
            (virtual_can_controller_read state offset size).trace.drop 1
        ∧ (virtual_can_controller_read state offset size).trace.getLast?
            = some Event.mutex_unlock)
    ∧ (∀ (state : VirtualCANControllerState) (offset1 size1 offset2 size2 : Nat),
        ∃ m : List (Bool × Event),
          Interleave (virtual_can_controller_read state offset1 size1).trace
            (virtual_can_controller_read state offset2 size2).trace m
          ∧ mutex_admits m = true) :=
  ⟨fun state offset1 size1 offset2 size2 m hm hadm =>
      read_bodies_serial _ _ _ _ _ _ state state offset1 size1 offset2 size2 m hm hadm,
    fun rs1 rr1 rs2 rr2 buf1 buf2 state offset1 size1 offset2 size2 m hm hadm =>
      read_bodies_serial rs1 rr1 rs2 rr2 buf1 buf2 state state offset1 size1 offset2 size2 m
        hm hadm,
    fun call state offset size => read_body_exchange call _ _ _ state offset size,
    fun state offset1 size1 offset2 size2 =>
      read_bodies_admitted _ _ _ _ _ _ state state offset1 size1 offset2 size2⟩

/-- Witness for `concurrent_reads_not_interleaved`: a read of size 4 and a
read of size 3, the second printing its entry line while the first holds the
lock; the mutex admits the execution and the two exchanges come one after the
other.  An execution in which the second call locks while the first holds the
lock is not admitted. -/
theorem concurrent_reads_not_interleaved_witness :
    Interleave (virtual_can_controller_read realized_state 0x1000 4).trace
        (virtual_can_controller_read realized_state 0x1004 3).trace
        [(false, Event.printf_read 0x1000 4), (false, Event.mutex_lock),
         (true, Event.printf_read 0x1004 3), (false, Event.printf_sending_read 0x1000 4),
         (false, Event.mutex_unlock), (true, Event.mutex_lock),
         (true, Event.printf_sending_read 0x1004 3),
         (true, Event.error_report (Report.invalid_read_size 3)),
         (true, Event.mutex_unlock)]
    ∧ mutex_admits
        [(false, Event.printf_read 0x1000 4), (false, Event.mutex_lock),
         (true, Event.printf_read 0x1004 3), (false, Event.printf_sending_read 0x1000 4),
         (false, Event.mutex_unlock), (true, Event.mutex_lock),
         (true, Event.printf_sending_read 0x1004 3),
         (true, Event.error_report (Report.invalid_read_size 3)),
         (true, Event.mutex_unlock)] = true
    ∧ ([(false, Event.printf_read 0x1000 4), (false, Event.mutex_lock),
         (true, Event.printf_read 0x1004 3), (false, Event.printf_sending_read 0x1000 4),
         (false, Event.mutex_unlock), (true, Event.mutex_lock),
         (true, Event.printf_sending_read 0x1004 3),
         (true, Event.error_report (Report.invalid_read_size 3)),
         (true, Event.mutex_unlock)].filter (fun e => e.2.in_exchange) =
          exchange false (virtual_can_controller_read realized_state 0x1000 4).trace
            ++ exchange true (virtual_can_controller_read realized_state 0x1004 3).trace
        ∨ [(false, Event.printf_read 0x1000 4), (false, Event.mutex_lock),
         (true, Event.printf_read 0x1004 3), (false, Event.printf_sending_read 0x1000 4),
         (false, Event.mutex_unlock), (true, Event.mutex_lock),
         (true, Event.printf_sending_read 0x1004 3),
         (true, Event.error_report (Report.invalid_read_size 3)),
         (true, Event.mutex_unlock)].filter (fun e => e.2.in_exchange) =
          exchange true (virtual_can_controller_read realized_state 0x1004 3).trace
            ++ exchange false (virtual_can_controller_read realized_state 0x1000 4).trace)
    ∧ mutex_admits
        [(false, Event.printf_read 0x1000 4), (false, Event.mutex_lock),
         (true, Event.printf_read 0x1004 3), (true, Event.mutex_lock),
         (true, Event.printf_sending_read 0x1004 3),
         (false, Event.printf_sending_read 0x1000 4), (false, Event.mutex_unlock),
         (true, Event.error_report (Report.invalid_read_size 3)),
         (true, Event.mutex_unlock)] = false := by
  have ht1 : (virtual_can_controller_read realized_state 0x1000 4).trace =
      [Event.printf_read 0x1000 4, Event.mutex_lock, Event.printf_sending_read 0x1000 4,
       Event.mutex_unlock] := by decide
  have ht2 : (virtual_can_controller_read realized_state 0x1004 3).trace =
      [Event.printf_read 0x1004 3, Event.mutex_lock, Event.printf_sending_read 0x1004 3,
       Event.error_report (Report.invalid_read_size 3), Event.mutex_unlock] := by decide
  have hm : Interleave (virtual_can_controller_read realized_state 0x1000 4).trace
      (virtual_can_controller_read realized_state 0x1004 3).trace
      [(false, Event.printf_read 0x1000 4), (false, Event.mutex_lock),
       (true, Event.printf_read 0x1004 3), (false, Event.printf_sending_read 0x1000 4),
       (false, Event.mutex_unlock), (true, Event.mutex_lock),
       (true, Event.printf_sending_read 0x1004 3),
       (true, Event.error_report (Report.invalid_read_size 3)),
       (true, Event.mutex_unlock)] := by
    rw [ht1, ht2]
    exact .first (.first (.second (.first (.first (.second (.second (.second
      (.second .done))))))))
  exact ⟨hm, by decide,
    concurrent_reads_not_interleaved.1 realized_state 0x1000 4 0x1004 3 _ hm (by decide),
    by decide⟩

end VirtualCAN
